import Mathlib

/-
Shallow embedding of the envguard-nextjs configuration loader
(src/index.ts) and proofs about the claims of its specification.

JavaScript objects of type Record<string, string> are modelled as
association lists (`EnvMap`) where assignment appends an entry and lookup
takes the LAST matching entry, so that `env[k] = v`, `Object.assign` and
object spread `{...a, ...b}` all become list append, with later entries
winning on key collision — exactly the JS overwrite semantics.

Mutable JS objects (needed for the aliasing/copy claims) are modelled by a
small heap: a list of `EnvMap` contents addressed by index (`Ref`).
-/

set_option autoImplicit false

namespace EnvGuard

/-- A JavaScript Record<string, string>: association list, last entry wins. -/
abbrev EnvMap := List (String × String)

/-- Property lookup on a JS record: the value of the last entry with key k. -/
def lookupEnv (m : EnvMap) (k : String) : Option String :=
  m.foldl (fun acc p => if p.1 = k then some p.2 else acc) none

/-- JS assignment env[k] = v: append (later entries shadow earlier ones). -/
def setKey (m : EnvMap) (k v : String) : EnvMap := m ++ [(k, v)]

/-- JS spread {...a, ...b} / Object.assign(a, b): entries of b win. -/
def mergeEnv (a b : EnvMap) : EnvMap := a ++ b

/-- Characters removed by JS String.prototype.trim: the ECMAScript
WhiteSpace set (TAB, VT, FF, SP, NBSP, ZWNBSP and the Unicode
Space_Separator category U+1680, U+2000–U+200A, U+202F, U+205F,
U+3000) and the LineTerminator set (LF, CR, U+2028, U+2029). -/
def isTrimmable (c : Char) : Bool :=
  c = '\t' || c = '\n' || c = '\x0b' || c = '\x0c' || c = '\r' ||
  c = ' ' || c = '\u00a0' || c = '\u1680' ||
  ('\u2000' ≤ c ∧ c ≤ '\u200a') ||
  c = '\u2028' || c = '\u2029' || c = '\u202f' || c = '\u205f' ||
  c = '\u3000' || c = '\ufeff'

/-- JS String.prototype.trim on a character list. -/
def trimChars (l : List Char) : List Char :=
  ((l.dropWhile isTrimmable).reverse.dropWhile isTrimmable).reverse

/-- JS String.prototype.split on a single character (split('\n')):
"a\n" becomes ["a", ""]. -/
def splitOnChar (c : Char) : List Char → List (List Char)
  | [] => [[]]
  | x :: xs =>
    if x = c then [] :: splitOnChar c xs
    else
      match splitOnChar c xs with
      | [] => [[x]]
      | l :: ls => (x :: l) :: ls

/-- Characters the JS regex metacharacter dot refuses to match (line
terminators; '\n' cannot occur inside a line that was split on '\n'). -/
def isLineTerm (c : Char) : Bool :=
  c = '\r' || c = '\u2028' || c = '\u2029'

/-- Split a character list at its first '=': returns (before, after) when
an '=' is present, none otherwise. -/
def splitFirstEq : List Char → Option (List Char × List Char)
  | [] => none
  | c :: cs =>
    if c = '=' then some ([], cs)
    else
      match splitFirstEq cs with
      | some (k, v) => some (c :: k, v)
      | none => none

/-- The JS regex match trimmed.match of ^([^=]+)=(.*)$ : succeeds iff the
line has an '=', at least one character stands before the first '=', and
the remainder after it contains no line-terminator character (which the
dot cannot match). Returns (group 1, group 2). -/
def envLineMatch (l : List Char) : Option (List Char × List Char) :=
  match splitFirstEq l with
  | some (k, v) =>
    if k ≠ [] && v.all (fun c => !isLineTerm c) then some (k, v) else none
  | none => none

/-- JS value.startsWith(q) && value.endsWith(q) for a one-character q. -/
def wrappedIn (q : Char) (l : List Char) : Bool :=
  l.headD ' ' = q && l.getLastD ' ' = q && l ≠ []

/-- JS value.slice(1, -1). -/
def sliceInner (l : List Char) : List Char := (l.drop 1).dropLast

/-- The quote-stripping step (src/index.ts:90-93): one layer of quotes
comes off when the value starts and ends with the same quote character
(a lone quote character satisfies both tests and becomes empty,
mirroring slice(1, -1) on a one-character string). -/
def stripQuotes (value : List Char) : List Char :=
  if wrappedIn '"' value || wrappedIn '\'' value then sliceInner value
  else value

/-- One iteration of the forEach in parseEnvFile (src/index.ts:81-97):
processes one line, accumulating into env. -/
def parseEnvLine (env : EnvMap) (line : List Char) : EnvMap :=
  let trimmed := trimChars line
  if trimmed.isEmpty || trimmed.headD ' ' = '#' then env
  else
    match envLineMatch trimmed with
    | some (k, v) =>
      setKey env (String.mk (trimChars k)) (String.mk (stripQuotes (trimChars v)))
    | none => env

/-- parseEnvFile (src/index.ts:77-100) on file content: split the text on
'\n' and fold every line into the accumulating record. -/
def parseEnvContent (content : String) : EnvMap :=
  (splitOnChar '\n' content.data).foldl parseEnvLine []

/-- The file system visible through fs.existsSync / fs.readFileSync:
a finite path → content table. -/
structure FS where
  files : List (String × String)

/-- fs.existsSync. -/
def FS.existsSync (fs : FS) (p : String) : Bool :=
  (fs.files.lookup p).isSome

/-- fs.readFileSync (only ever called on existing files in the source). -/
def FS.readFileSync (fs : FS) (p : String) : String :=
  (fs.files.lookup p).getD ""

/-- Well-formed file system: a real file never has the empty path
(fs.existsSync of an empty string is false on any actual system). -/
def FS.WF (fs : FS) : Prop := ∀ q ∈ fs.files, q.1 ≠ ""

/-- parseEnvFile reads the file at the path and parses its text. -/
def parseEnvFile (fs : FS) (p : String) : EnvMap :=
  parseEnvContent (fs.readFileSync p)

/-- path.join of the working directory and a candidate file name. -/
def pathJoin (dir file : String) : String := dir ++ "/" ++ file

/-- JS string truthiness: only the empty string is falsy. -/
def truthy (s : String) : Bool := s ≠ ""

/-- The expression process.env.NODE_ENV || 'development'
(src/index.ts:63): falls back when NODE_ENV is unset OR empty. -/
def nodeMode (penv : EnvMap) : String :=
  match lookupEnv penv "NODE_ENV" with
  | some s => if truthy s then s else "development"
  | none => "development"

/-- The fixed layered candidate list (src/index.ts:64). -/
def envFilesFor (mode : String) : List String :=
  [".env", ".env." ++ mode, ".env.local", ".env." ++ mode ++ ".local"]

/-- The default-layers loop of loadEnvVars (src/index.ts:63-74). -/
def loadDefaultLayers (fs : FS) (cwd : String) (penv : EnvMap) : EnvMap :=
  (envFilesFor (nodeMode penv)).foldl
    (fun env file =>
      if fs.existsSync (pathJoin cwd file) then
        mergeEnv env (parseEnvFile fs (pathJoin cwd file))
      else env)
    []

/-- loadEnvVars (src/index.ts:55-75). The custom-path guard is the JS
condition customPath && fs.existsSync(customPath). -/
def loadEnvVars (fs : FS) (cwd : String) (penv : EnvMap)
    (customPath : Option String) : EnvMap :=
  match customPath with
  | some p =>
    if truthy p && fs.existsSync p then mergeEnv [] (parseEnvFile fs p)
    else loadDefaultLayers fs cwd penv
  | none => loadDefaultLayers fs cwd penv

/-- A heap of JS objects: contents addressed by allocation index. -/
structure Heap where
  objs : List EnvMap
deriving DecidableEq

/-- Dereference (out-of-range reads never happen in reachable states). -/
def Heap.get (h : Heap) (r : Nat) : EnvMap := h.objs.getD r []

/-- Allocate a fresh object holding the given contents. -/
def Heap.alloc (h : Heap) (m : EnvMap) : Heap × Nat :=
  (⟨h.objs ++ [m]⟩, h.objs.length)

/-- Replace the contents stored at a reference. -/
def Heap.setObj (h : Heap) (r : Nat) (m : EnvMap) : Heap :=
  ⟨h.objs.set r m⟩

/-- A caller mutating a returned object: obj[k] = v through reference r. -/
def Heap.assignKey (h : Heap) (r : Nat) (k v : String) : Heap :=
  h.setObj r (setKey (h.get r) k v)

/-- The module-level mutable state of src/index.ts:5-6: the reference
held by the runtimeEnv binding and the isInitialized flag. -/
structure GuardState where
  heap : Heap
  runtimeEnv : Nat
  isInitialized : Bool
deriving DecidableEq

/-- State at module load: runtimeEnv holds a fresh empty object. -/
def initialState : GuardState := ⟨⟨[[]]⟩, 0, false⟩

/-- A caller mutating an object it was handed, leaving the bindings as
they are. -/
def mutateRef (st : GuardState) (r : Nat) (k v : String) : GuardState :=
  ⟨st.heap.assignKey r k v, st.runtimeEnv, st.isInitialized⟩

/-- One field-level issue of a ZodError. -/
structure ZodIssue where
  path : List String
  message : String
  code : String
deriving DecidableEq

/-- The structured validation error thrown by schema.parse. -/
structure ZodError where
  issues : List ZodIssue
deriving DecidableEq

/-- EnvGuardConfig (src/index.ts:8-13). The schema is any value with a
parse capability: typed output or a thrown ZodError. onError is the
presence of a caller-supplied handler (the handler only observes the
error; it gets modelled by the handled flag of the outcome). -/
structure EnvGuardConfig where
  schema : EnvMap → Except ZodError EnvMap
  envPath : Option String
  allowMissingInDev : Bool
  onError : Bool

/-- How a call to initEnv / createEnv ends: a normal return of an object
reference, process.exit, a rethrown ZodError (handled = the onError
callback ran first), or a thrown plain Error message. -/
inductive Outcome where
  | ret (r : Nat)
  | exited (code : Nat)
  | raise (e : ZodError) (handled : Bool)
  | raiseMsg (msg : String)
deriving DecidableEq

/-- Result of a stateful call: final state, console output, outcome. -/
structure InitResult where
  state : GuardState
  out : List String
  outcome : Outcome

/-- issue.path.join of the dot. -/
def joinPath (path : List String) : String := String.intercalate "." path

/-- handleValidationError (src/index.ts:102-127): console lines and the
process exit code. The source function never returns normally — every
branch ends in process.exit — so its embedding is total with an exit
code on every path. -/
def handleValidationError (e : ZodError) (allowMissingInDev : Bool)
    (penv : EnvMap) : List String × Nat :=
  let isDev := lookupEnv penv "NODE_ENV" = some "development"
  let header := ["\n❌ EnvGuard: Validation failed\n"]
  let issueLines := e.issues.map
    (fun i => "  • " ++ joinPath i.path ++ ": " ++ i.message)
  let reqLines := ["\n📝 Required:"] ++
    (e.issues.filter (fun i => i.code = "invalid_type")).map
      (fun i => "  export " ++ i.path.headD "undefined" ++ "=<value>")
  let pre := header ++ issueLines ++ reqLines
  if allowMissingInDev ∧ isDev then
    (pre ++ ["\n⚠️ Dev mode: Continuing\n"], 0)
  else
    (pre ++ ["\n💡 Check your .env files\n"], 1)

/-- The merged mapping handed to schema.parse (src/index.ts:23-24):
mergedEnv = spread of envVars then process.env. -/
def initMerged (cfg : EnvGuardConfig) (fs : FS) (cwd : String)
    (penv : EnvMap) : EnvMap :=
  mergeEnv (loadEnvVars fs cwd penv cfg.envPath) penv

/-- initEnv (src/index.ts:15-46). schema.parse success allocates the
fresh validated object, which both the runtimeEnv binding and the
caller receive (the same reference). On a ZodError: a present onError
handler observes the error and the error is rethrown; otherwise
handleValidationError ends the process, so the exit code is the
outcome and the trailing throw is unreachable. -/
def initEnv (cfg : EnvGuardConfig) (fs : FS) (cwd : String) (penv : EnvMap)
    (st : GuardState) : InitResult :=
  if st.isInitialized ∧ lookupEnv penv "NODE_ENV" ≠ some "test" then
    ⟨st, ["EnvGuard already initialized."], Outcome.ret st.runtimeEnv⟩
  else
    match cfg.schema (initMerged cfg fs cwd penv) with
    | Except.ok validated =>
      ⟨⟨(st.heap.alloc validated).1, (st.heap.alloc validated).2, true⟩,
        if lookupEnv penv "NODE_ENV" ≠ some "production"
        then ["✅ EnvGuard: Validated"] else [],
        Outcome.ret (st.heap.alloc validated).2⟩
    | Except.error err =>
      if cfg.onError then
        ⟨st, [], Outcome.raise err true⟩
      else
        ⟨st, (handleValidationError err cfg.allowMissingInDev penv).1,
          Outcome.exited (handleValidationError err cfg.allowMissingInDev penv).2⟩

/-- getEnv (src/index.ts:48-53): throws when uninitialized, otherwise
returns a freshly allocated shallow copy of the cached object. -/
def getEnv (st : GuardState) : Except String (GuardState × Nat) :=
  if st.isInitialized then
    Except.ok
      (⟨(st.heap.alloc (st.heap.get st.runtimeEnv)).1, st.runtimeEnv,
         st.isInitialized⟩,
       (st.heap.alloc (st.heap.get st.runtimeEnv)).2)
  else
    Except.error "EnvGuard not initialized. Call initEnv() first."

/-- createEnv (src/index.ts:129-134): initEnv then getEnv, discarding
the value initEnv returned. -/
def createEnv (cfg : EnvGuardConfig) (fs : FS) (cwd : String) (penv : EnvMap)
    (st : GuardState) : InitResult :=
  let r := initEnv cfg fs cwd penv st
  match r.outcome with
  | Outcome.ret _ =>
    match getEnv r.state with
    | Except.ok sr => ⟨sr.1, r.out, Outcome.ret sr.2⟩
    | Except.error msg => ⟨r.state, r.out, Outcome.raiseMsg msg⟩
  | o => ⟨r.state, r.out, o⟩

/-- key.startsWith of the string NEXT_PUBLIC_ . -/
def hasPublicMark (k : String) : Bool :=
  "NEXT_PUBLIC_".data.isPrefixOf k.data

/-- The error text thrown by createClientEnv for an offending field. -/
def clientEnvErrorMsg (k : String) : String :=
  "Client env \"" ++ k ++ "\" must start with NEXT_PUBLIC_"

/-- createClientEnv (src/index.ts:140-147) on the declared field names
(Object.keys of the shape; the zod value types play no role in the
check): the forEach throws at the first offending key, else z.object
wraps the shape. -/
def createClientEnv (shape : List String) : Except String (List String) :=
  match shape.find? (fun k => !hasPublicMark k) with
  | some k => Except.error (clientEnvErrorMsg k)
  | none => Except.ok shape

/-- createServerEnv (src/index.ts:136-138): z.object of the shape,
no constraint on the field names. -/
def createServerEnv (shape : List String) : Except String (List String) :=
  Except.ok shape

/-! Basic lemmas about record lookup. -/

theorem foldl_lookup_acc (t : EnvMap) (k : String) (acc : Option String) :
    t.foldl (fun a p => if p.1 = k then some p.2 else a) acc =
      match t.foldl (fun a p => if p.1 = k then some p.2 else a) none with
      | some v => some v
      | none => acc := by
  induction t generalizing acc with
  | nil => simp
  | cons p t ih =>
    simp only [List.foldl_cons]
    by_cases h : p.1 = k
    · rw [if_pos h, if_pos h, ih (some p.2)]
      cases t.foldl (fun a p => if p.1 = k then some p.2 else a) none <;> rfl
    · rw [if_neg h, if_neg h, ih acc]

/-- Lookup in a concatenation of records: the right part wins. -/
theorem lookupEnv_append (a b : EnvMap) (k : String) :
    lookupEnv (a ++ b) k =
      match lookupEnv b k with
      | some v => some v
      | none => lookupEnv a k := by
  unfold lookupEnv
  rw [List.foldl_append]
  exact foldl_lookup_acc b k _

/-- Lookup through the JS spread: entries of b override entries of a. -/
theorem lookupEnv_mergeEnv (a b : EnvMap) (k : String) :
    lookupEnv (mergeEnv a b) k =
      match lookupEnv b k with
      | some v => some v
      | none => lookupEnv a k :=
  lookupEnv_append a b k

/-- Assigning a key makes its lookup return the assigned value. -/
theorem lookupEnv_setKey (m : EnvMap) (k v : String) :
    lookupEnv (setKey m k v) k = some v := by
  unfold setKey
  rw [lookupEnv_append]
  simp [lookupEnv]

/-- C3: every key present in the live process environment reaches the
schema's parse with the process environment's value, regardless of what
the file layers said; a key absent from the process environment keeps
its file-derived value in the merged mapping. -/
theorem c3_process_env_precedence (cfg : EnvGuardConfig) (fs : FS)
    (cwd : String) (penv : EnvMap) (k : String) :
    (∀ v, lookupEnv penv k = some v →
      lookupEnv (initMerged cfg fs cwd penv) k = some v) ∧
    (lookupEnv penv k = none →
      lookupEnv (initMerged cfg fs cwd penv) k =
        lookupEnv (loadEnvVars fs cwd penv cfg.envPath) k) := by
  constructor
  · intro v hv
    unfold initMerged
    rw [lookupEnv_mergeEnv, hv]
  · intro h
    unfold initMerged
    rw [lookupEnv_mergeEnv, h]

/-- Concrete configuration for the C3 witness. -/
def c3cfg : EnvGuardConfig := ⟨fun m => Except.ok m, none, false, false⟩

/-- Witness for C3 at a concrete input: PORT is defined by a file layer
as 3000 and by the process environment as 8080; the merged mapping
holds 8080. -/
theorem c3_process_env_precedence_witness :
    lookupEnv (initMerged c3cfg ⟨[("/app/.env", "PORT=3000")]⟩ "/app"
      [("PORT", "8080")]) "PORT" = some "8080" :=
  (c3_process_env_precedence c3cfg ⟨[("/app/.env", "PORT=3000")]⟩ "/app"
    [("PORT", "8080")] "PORT").1 "8080" (by decide)

/-- C9: createServerEnv accepts any field set unchanged; createClientEnv
succeeds when every declared field name carries the NEXT_PUBLIC_ prefix
and, as soon as some field lacks it, fails with the error message naming
an offending field (the first one, before any schema is built). -/
theorem c9_client_guard (shape : List String) :
    createServerEnv shape = Except.ok shape ∧
    ((∀ k ∈ shape, hasPublicMark k = true) →
      createClientEnv shape = Except.ok shape) ∧
    (∀ k ∈ shape, hasPublicMark k = false →
      ∃ bad ∈ shape, hasPublicMark bad = false ∧
        createClientEnv shape = Except.error (clientEnvErrorMsg bad)) := by
  refine ⟨rfl, ?_, ?_⟩
  · intro h
    unfold createClientEnv
    cases hf : shape.find? (fun k => !hasPublicMark k) with
    | none => rfl
    | some k =>
      have hp := List.find?_some hf
      have hm := List.mem_of_find?_eq_some hf
      rw [h k hm] at hp
      simp at hp
  · intro k hk hbad
    unfold createClientEnv
    cases hf : shape.find? (fun k => !hasPublicMark k) with
    | none =>
      rw [List.find?_eq_none] at hf
      have := hf k hk
      rw [hbad] at this
      simp at this
    | some bad =>
      have hp := List.find?_some hf
      simp only [Bool.not_eq_true'] at hp
      exact ⟨bad, List.mem_of_find?_eq_some hf, hp, rfl⟩

/-- Witness for C9: the NEXT_PUBLIC_FOO shape builds, the SECRET shape
fails synchronously naming SECRET. -/
theorem c9_client_guard_witness :
    createClientEnv ["NEXT_PUBLIC_FOO"] = Except.ok ["NEXT_PUBLIC_FOO"] ∧
    ∃ bad ∈ ["SECRET"], hasPublicMark bad = false ∧
      createClientEnv ["SECRET"] = Except.error (clientEnvErrorMsg bad) :=
  ⟨(c9_client_guard ["NEXT_PUBLIC_FOO"]).2.1 (by decide),
   (c9_client_guard ["SECRET"]).2.2 "SECRET" (by decide) (by decide)⟩

/-- Modelled from the claims' words (C1, C4): a deployment mode that
defaults to development exactly when NODE_ENV is UNSET. The code
disagrees twice: handleValidationError never defaults at all, and
loadEnvVars also defaults on an empty NODE_ENV. -/
def statedMode (penv : EnvMap) : String :=
  (lookupEnv penv "NODE_ENV").getD "development"

/-- Modelled from claim C1 as stated: the exit code that claim predicts
for the Diagnostics Reporter. -/
def statedReporterCode (allowMissingInDev : Bool) (penv : EnvMap) : Nat :=
  if allowMissingInDev ∧ statedMode penv = "development" then 0 else 1

/-- C1 (amended): the Diagnostics Reporter ends the process on every
path (its embedding is a total function onto an exit code): the exit
code is 0 exactly when allowMissingInDev is set AND NODE_ENV is
literally set to "development" — the reporter performs a strict
comparison, so an unset NODE_ENV does NOT count as development — and
the 0-exit path prints the dev-mode warning banner; every other case
exits with code 1. -/
theorem c1_reporter_disposition (e : ZodError) (allow : Bool)
    (penv : EnvMap) :
    ((handleValidationError e allow penv).2 = 0 ∨
      (handleValidationError e allow penv).2 = 1) ∧
    ((handleValidationError e allow penv).2 = 0 ↔
      (allow = true ∧ lookupEnv penv "NODE_ENV" = some "development")) ∧
    ((allow = true ∧ lookupEnv penv "NODE_ENV" = some "development") →
      "\n⚠️ Dev mode: Continuing\n" ∈ (handleValidationError e allow penv).1) := by
  cases allow <;>
    by_cases hd : lookupEnv penv "NODE_ENV" = some "development" <;>
      simp [handleValidationError, hd]

/-- C1 counterexample: allowMissingInDev is set and NODE_ENV is unset.
The claim as stated resolves the mode to "development" by defaulting and
predicts exit code 0; handleValidationError compares NODE_ENV with
"development" strictly, the comparison fails on an unset variable, and
the process exits with code 1. -/
theorem c1_reporter_counterexample :
    statedReporterCode true [] = 0 ∧
    (handleValidationError
      ⟨[⟨["DATABASE_URL"], "Required", "invalid_type"⟩]⟩ true []).2 = 1 := by
  decide

/-- C6: once a snapshot exists and NODE_ENV is not "test", initEnv — with
ANY config and any file system — only warns and returns the existing
snapshot reference, with the state untouched: the right-hand side does
not depend on cfg, fs or cwd, so no file loading, merging or validation
can influence the result. -/
theorem c6_reinit_warning_noop (cfg : EnvGuardConfig) (fs : FS)
    (cwd : String) (penv : EnvMap) (st : GuardState)
    (hinit : st.isInitialized = true)
    (htest : lookupEnv penv "NODE_ENV" ≠ some "test") :
    initEnv cfg fs cwd penv st =
      ⟨st, ["EnvGuard already initialized."], Outcome.ret st.runtimeEnv⟩ := by
  unfold initEnv
  rw [if_pos ⟨hinit, htest⟩]

/-- Witness for C6 at a concrete initialized state: a second initEnv
with a fresh config is a warning no-op. -/
theorem c6_reinit_warning_noop_witness :
    initEnv ⟨fun m => Except.ok m, none, false, false⟩ ⟨[]⟩ "/app"
      [("NODE_ENV", "production")] ⟨⟨[[("A", "1")]]⟩, 0, true⟩ =
      ⟨⟨⟨[[("A", "1")]]⟩, 0, true⟩, ["EnvGuard already initialized."],
        Outcome.ret 0⟩ :=
  c6_reinit_warning_noop _ _ _ _ _ rfl (by decide)

/-- C10: when schema validation fails with a ZodError (and the guarded
early-return path is not taken), a present onError handler observes the
error and initEnv re-raises that same original error with the cache
state untouched (isInitialized stays as it was); with no handler the
error goes to handleValidationError, whose exit code ends the process,
again with the cache state untouched. -/
theorem c10_validation_error_propagation (cfg : EnvGuardConfig) (fs : FS)
    (cwd : String) (penv : EnvMap) (st : GuardState) (e : ZodError)
    (hguard : ¬(st.isInitialized = true ∧
      lookupEnv penv "NODE_ENV" ≠ some "test"))
    (herr : cfg.schema (initMerged cfg fs cwd penv) = Except.error e) :
    (cfg.onError = true →
      initEnv cfg fs cwd penv st = ⟨st, [], Outcome.raise e true⟩) ∧
    (cfg.onError = false →
      initEnv cfg fs cwd penv st =
        ⟨st, (handleValidationError e cfg.allowMissingInDev penv).1,
          Outcome.exited
            (handleValidationError e cfg.allowMissingInDev penv).2⟩) := by
  unfold initEnv
  rw [if_neg hguard, herr]
  constructor <;> intro ho <;> simp [ho]

/-- Concrete failing configuration with an onError handler for the C10
witness. -/
def c10cfg : EnvGuardConfig :=
  ⟨fun _ => Except.error ⟨[⟨["DATABASE_URL"], "Required", "invalid_type"⟩]⟩,
    none, false, true⟩

/-- Witness for C10: a failing validation with a handler present ends in
the handler observing the error and the original error being re-raised,
the state untouched. -/
theorem c10_validation_error_propagation_witness :
    initEnv c10cfg ⟨[]⟩ "/app" [] initialState =
      ⟨initialState, [],
        Outcome.raise ⟨[⟨["DATABASE_URL"], "Required", "invalid_type"⟩]⟩
          true⟩ :=
  (c10_validation_error_propagation c10cfg ⟨[]⟩ "/app" [] initialState _
    (by decide) rfl).1 rfl

/-! Claim C4: file selection and layering in loadEnvVars. -/

/-- Modelled from claim C4's words: the merge, in exactly the candidate
order, of whichever of the four layered files exist, each resolved
against the working directory. -/
def layeredMergeAt (fs : FS) (cwd : String) (mode : String) : EnvMap :=
  (((envFilesFor mode).map (pathJoin cwd)).filter
      (fun p => fs.existsSync p)).foldl
    (fun env p => mergeEnv env (parseEnvFile fs p)) []

/-- A fold that skips elements failing a test equals the fold over the
filtered list. -/
theorem foldl_if_filter {α β : Type} (q : α → Bool) (g : β → α → β)
    (l : List α) (init : β) :
    l.foldl (fun env x => if q x then g env x else env) init =
      (l.filter q).foldl g init := by
  induction l generalizing init with
  | nil => rfl
  | cons x xs ih =>
    rw [List.foldl_cons, List.filter_cons]
    by_cases h : q x = true
    · rw [if_pos h, if_pos h, List.foldl_cons, ih]
    · rw [if_neg h, if_neg h, ih]

/-- The default-layers loop computes exactly the claim's filtered merge,
at the mode the code resolves. -/
theorem loadDefaultLayers_eq (fs : FS) (cwd : String) (penv : EnvMap) :
    loadDefaultLayers fs cwd penv = layeredMergeAt fs cwd (nodeMode penv) := by
  unfold loadDefaultLayers layeredMergeAt
  rw [← foldl_if_filter, List.foldl_map]

/-- A key that List.lookup finds is the key of some stored entry. -/
theorem lookup_some_key_mem {α β : Type} [BEq α] [LawfulBEq α]
    {l : List (α × β)} {a : α} {b : β} (h : l.lookup a = some b) :
    (a, b) ∈ l := by
  induction l with
  | nil => simp [List.lookup] at h
  | cons p t ih =>
    rw [List.lookup_cons] at h
    by_cases he : a == p.1
    · simp only [he] at h
      injection h with h2
      subst h2
      rw [List.mem_cons]
      exact Or.inl (by rw [eq_of_beq he])
    · rw [Bool.not_eq_true] at he
      simp only [he] at h
      rw [List.mem_cons]
      exact Or.inr (ih h)

/-- On a well-formed file system an existing file's path is nonempty. -/
theorem existsSync_path_ne_empty {fs : FS} (hwf : fs.WF) {p : String}
    (h : fs.existsSync p = true) : p ≠ "" := by
  unfold FS.existsSync at h
  cases hl : fs.files.lookup p with
  | none => rw [hl] at h; simp at h
  | some c => exact hwf (p, c) (lookup_some_key_mem hl)

/-- C4 (amended): with an explicit path that exists the result is
exactly that one file's parsed contents, the layered defaults ignored;
otherwise — no explicit path, or an explicit path that is missing — the
result is the merge of whichever of .env, .env.mode, .env.local,
.env.mode.local exist under the working directory, in exactly that
order, later files' entries overwriting earlier keys, missing files
skipped, where mode is NODE_ENV except that an UNSET OR EMPTY NODE_ENV
falls back to "development". -/
theorem c4_loadEnvVars_selection (fs : FS) (cwd : String) (penv : EnvMap)
    (hwf : fs.WF) :
    (∀ p, fs.existsSync p = true →
      loadEnvVars fs cwd penv (some p) = parseEnvFile fs p) ∧
    (∀ p, fs.existsSync p = false →
      loadEnvVars fs cwd penv (some p) =
        layeredMergeAt fs cwd (nodeMode penv)) ∧
    loadEnvVars fs cwd penv none = layeredMergeAt fs cwd (nodeMode penv) ∧
    (∀ a b k, lookupEnv (mergeEnv a b) k =
      match lookupEnv b k with
      | some v => some v
      | none => lookupEnv a k) := by
  refine ⟨?_, ?_, ?_, fun a b k => lookupEnv_mergeEnv a b k⟩
  · intro p hp
    have hne := existsSync_path_ne_empty hwf hp
    simp only [loadEnvVars]
    rw [if_pos (by simp [truthy, hne, hp])]
    unfold mergeEnv
    exact List.nil_append _
  · intro p hp
    simp only [loadEnvVars]
    rw [if_neg (by simp [hp]), loadDefaultLayers_eq]
  · simp only [loadEnvVars]
    rw [loadDefaultLayers_eq]

/-- Witness for C4 at concrete inputs: an explicit existing path wins
over the defaults. -/
theorem c4_loadEnvVars_selection_witness :
    loadEnvVars ⟨[("/tmp/custom.env", "B=2")]⟩ "/app" []
      (some "/tmp/custom.env") =
      parseEnvFile ⟨[("/tmp/custom.env", "B=2")]⟩ "/tmp/custom.env" :=
  (c4_loadEnvVars_selection ⟨[("/tmp/custom.env", "B=2")]⟩ "/app" []
    (by unfold FS.WF; decide)).1 "/tmp/custom.env" (by decide)

/-- C4 counterexample: NODE_ENV set to the empty string. The claim as
stated takes the mode to be "" (defaulting only when NODE_ENV is
unset), under which no candidate file exists here; the code's truthy
test also defaults on the empty string, so loadEnvVars reads
.env.development and returns its entry. -/
theorem c4_loader_counterexample :
    loadEnvVars ⟨[("/app/.env.development", "A=1")]⟩ "/app"
      [("NODE_ENV", "")] none = [("A", "1")] ∧
    statedMode [("NODE_ENV", "")] = "" ∧
    layeredMergeAt ⟨[("/app/.env.development", "A=1")]⟩ "/app"
      (statedMode [("NODE_ENV", "")]) = [] := by
  decide

/-! Claim C5: the per-line behavior of parseEnvFile. -/

/-- Modelled from claim C5's words as stated: no entry for blank lines,
comment lines and lines with no '='; every other line yields the entry
built from the first '=' (key = trimmed text before it, value = trimmed
remainder with one layer of matching quotes stripped). -/
def claimedLineEntry (line : List Char) : Option (String × String) :=
  let trimmed := trimChars line
  if trimmed.isEmpty ∨ trimmed.headD ' ' = '#' ∨ ¬ '=' ∈ trimmed then none
  else
    some (String.mk (trimChars (trimmed.takeWhile (fun c => c ≠ '='))),
      String.mk (stripQuotes (trimChars
        ((trimmed.dropWhile (fun c => c ≠ '=')).drop 1))))

/-- Claim C5's per-line rule as amended: no entry for a blank or comment
line; an entry exactly when the TRIMMED line has an '=', at least one
character stands before the first '=' (the regex needs a nonempty key
part) and the text after the first '=' holds no bare carriage return or
Unicode line separator (the regex dot refuses those; trimming already
removed such characters from the line's edges, so only ones strictly
inside the line can block the match); the entry is trimmed key →
trimmed, one-layer-unquoted value. -/
def amendedLineEntry (line : List Char) : Option (String × String) :=
  let trimmed := trimChars line
  if trimmed.isEmpty || trimmed.headD ' ' = '#' then none
  else if '=' ∈ trimmed then
    if trimmed.takeWhile (fun c => c ≠ '=') ≠ [] ∧
        ((trimmed.dropWhile (fun c => c ≠ '=')).drop 1).all
          (fun c => !isLineTerm c) = true then
      some (String.mk (trimChars (trimmed.takeWhile (fun c => c ≠ '='))),
        String.mk (stripQuotes (trimChars
          ((trimmed.dropWhile (fun c => c ≠ '=')).drop 1))))
    else none
  else none

/-- splitFirstEq in terms of takeWhile / dropWhile at the first '='. -/
theorem splitFirstEq_spec (l : List Char) :
    splitFirstEq l =
      if '=' ∈ l then
        some (l.takeWhile (fun c => c ≠ '='),
          (l.dropWhile (fun c => c ≠ '=')).drop 1)
      else none := by
  induction l with
  | nil => simp [splitFirstEq]
  | cons c cs ih =>
    by_cases h : c = '='
    · subst h
      simp [splitFirstEq, List.takeWhile_cons, List.dropWhile_cons]
    · simp only [splitFirstEq, if_neg h, ih, List.takeWhile_cons,
        List.dropWhile_cons, List.mem_cons]
      by_cases h2 : '=' ∈ cs
      · simp [h2, h, Ne.symm h]
      · simp [h2, h, Ne.symm h]

/-- The regex match characterized by the claim's take/drop split. -/
theorem envLineMatch_eq (t : List Char) :
    envLineMatch t =
      if '=' ∈ t then
        if t.takeWhile (fun c => c ≠ '=') ≠ [] ∧
            ((t.dropWhile (fun c => c ≠ '=')).drop 1).all
              (fun c => !isLineTerm c) = true then
          some (t.takeWhile (fun c => c ≠ '='),
            (t.dropWhile (fun c => c ≠ '=')).drop 1)
        else none
      else none := by
  unfold envLineMatch
  rw [splitFirstEq_spec]
  by_cases hm : '=' ∈ t
  · rw [if_pos hm, if_pos hm]
    dsimp only
    simp only [Bool.and_eq_true, decide_eq_true_eq]
  · rw [if_neg hm, if_neg hm]

/-- parseEnvFile processes one line exactly as the amended claim says. -/
theorem parseEnvLine_eq_amended (env : EnvMap) (line : List Char) :
    parseEnvLine env line =
      match amendedLineEntry line with
      | none => env
      | some kv => setKey env kv.1 kv.2 := by
  unfold parseEnvLine amendedLineEntry
  dsimp only
  rw [envLineMatch_eq]
  by_cases h1 :
    ((trimChars line).isEmpty ||
      decide ((trimChars line).headD ' ' = '#')) = true
  · rw [if_pos h1, if_pos h1]
  · rw [if_neg h1, if_neg h1]
    by_cases h2 : '=' ∈ trimChars line
    · rw [if_pos h2, if_pos h2]
      by_cases h3 : (trimChars line).takeWhile (fun c => c ≠ '=') ≠ [] ∧
          (((trimChars line).dropWhile (fun c => c ≠ '=')).drop 1).all
            (fun c => !isLineTerm c) = true
      · rw [if_pos h3, if_pos h3]
      · rw [if_neg h3, if_neg h3]
    · rw [if_neg h2, if_neg h2]

/-- C5 (amended): parseEnvFile splits the text on newlines and folds
each line by the amended per-line rule — no entry for blank lines,
comment lines, lines with no '=', lines with nothing before their first
'=' and lines whose post-'=' text holds a bare line-terminator
character strictly inside the trimmed line (trimming removes such
characters at the edges first, so a trailing U+2028 or carriage return
does not block the entry); every other line stores trimmed key →
trimmed, one-layer unquoted value — and a later entry for a key shadows
an earlier one in lookup. -/
theorem c5_parseEnvFile_behavior (content : String) (env : EnvMap)
    (line : List Char) (m : EnvMap) (k v : String) :
    parseEnvContent content =
      (splitOnChar '\n' content.data).foldl
        (fun e l =>
          match amendedLineEntry l with
          | none => e
          | some kv => setKey e kv.1 kv.2) [] ∧
    parseEnvLine env line =
      (match amendedLineEntry line with
       | none => env
       | some kv => setKey env kv.1 kv.2) ∧
    lookupEnv (setKey m k v) k = some v := by
  refine ⟨?_, parseEnvLine_eq_amended env line, lookupEnv_setKey m k v⟩
  unfold parseEnvContent
  exact List.foldl_ext _ _ [] (fun e l _ => parseEnvLine_eq_amended e l)

/-- C5 counterexample: the line "=foo" contains an '=' and is neither
blank nor a comment, so the claim as stated stores the entry "" → foo;
the regex of parseEnvFile requires at least one character before the
first '=' and does not match, so the code stores nothing. -/
theorem c5_parse_counterexample :
    parseEnvContent "=foo" = [] ∧
    claimedLineEntry "=foo".data = some ("", "foo") := by
  decide

/-! Heap lemmas for the copy/aliasing claims. -/

/-- Reading the object a fresh allocation returned. -/
theorem Heap.get_alloc_self (h : Heap) (m : EnvMap) :
    (h.alloc m).1.get (h.alloc m).2 = m := by
  unfold Heap.alloc Heap.get
  simp [List.getD_eq_getElem?_getD, List.getElem?_concat_length]

/-- Allocation leaves every already-allocated object alone. -/
theorem Heap.get_alloc_old (h : Heap) (m : EnvMap) {r : Nat}
    (hr : r < h.objs.length) :
    (h.alloc m).1.get r = h.get r := by
  unfold Heap.alloc Heap.get
  rw [List.getD_eq_getElem?_getD, List.getD_eq_getElem?_getD,
    List.getElem?_append_left hr]

/-- Assigning a key through one reference leaves every other object
alone. -/
theorem Heap.get_assignKey_other (h : Heap) (r : Nat) (k v : String)
    (q : Nat) (hne : r ≠ q) : (h.assignKey r k v).get q = h.get q := by
  unfold Heap.assignKey Heap.setObj Heap.get
  simp [List.getD_eq_getElem?_getD, List.getElem?_set_ne hne]

/-- Mutating a freshly allocated object does not change any object that
already existed. -/
theorem mutate_fresh_preserves (h : Heap) (m : EnvMap) (q : Nat)
    (k v : String) (hq : q < h.objs.length) :
    ((h.alloc m).1.assignKey (h.alloc m).2 k v).get q = h.get q := by
  unfold Heap.alloc Heap.assignKey Heap.setObj Heap.get
  simp [List.getD_eq_getElem?_getD,
    List.getElem?_set_ne (Ne.symm (Nat.ne_of_lt hq)),
    List.getElem?_append_left hq]

/-- getEnv on an initialized state, written out: a fresh copy of the
cached contents is allocated and its reference returned. -/
theorem getEnv_ok (st : GuardState) (hinit : st.isInitialized = true) :
    getEnv st = Except.ok
      (⟨(st.heap.alloc (st.heap.get st.runtimeEnv)).1, st.runtimeEnv,
         st.isInitialized⟩,
       (st.heap.alloc (st.heap.get st.runtimeEnv)).2) := by
  unfold getEnv
  rw [if_pos hinit]

/-- C7: after initialization, getEnv returns a reference distinct from
the cached runtimeEnv reference whose contents equal the cached
contents key for key; mutating the returned copy leaves the cached
object as it was, so any subsequent getEnv still returns the original
values. -/
theorem c7_getEnv_shallow_copy (st : GuardState)
    (hinit : st.isInitialized = true)
    (hvalid : st.runtimeEnv < st.heap.objs.length) :
    ∃ st' r, getEnv st = Except.ok (st', r) ∧
      st'.heap.get r = st.heap.get st.runtimeEnv ∧
      r ≠ st'.runtimeEnv ∧
      st'.runtimeEnv = st.runtimeEnv ∧
      (∀ k v, ∃ st2 r2,
        getEnv (mutateRef st' r k v) = Except.ok (st2, r2) ∧
        st2.heap.get r2 = st.heap.get st.runtimeEnv) := by
  refine ⟨⟨(st.heap.alloc (st.heap.get st.runtimeEnv)).1, st.runtimeEnv,
      st.isInitialized⟩, (st.heap.alloc (st.heap.get st.runtimeEnv)).2,
    getEnv_ok st hinit, Heap.get_alloc_self _ _,
    Ne.symm (Nat.ne_of_lt hvalid), rfl, ?_⟩
  intro k v
  refine ⟨_, _, getEnv_ok _ hinit, ?_⟩
  rw [Heap.get_alloc_self]
  exact mutate_fresh_preserves st.heap _ st.runtimeEnv k v hvalid

/-- Witness for C7 at a concrete initialized state: the copy observed
after a mutation still holds the originally validated contents. -/
theorem c7_getEnv_shallow_copy_witness :
    ∃ st' r,
      getEnv ⟨⟨[[("A", "1")]]⟩, 0, true⟩ = Except.ok (st', r) ∧
      st'.heap.get r = [("A", "1")] ∧
      r ≠ st'.runtimeEnv ∧
      st'.runtimeEnv = 0 ∧
      (∀ k v, ∃ st2 r2,
        getEnv (mutateRef st' r k v) = Except.ok (st2, r2) ∧
        st2.heap.get r2 = [("A", "1")]) :=
  c7_getEnv_shallow_copy ⟨⟨[[("A", "1")]]⟩, 0, true⟩ rfl (by decide)

/-! Claim C8: the cache stays empty until the first successful
validation. -/

/-- The arguments of one initEnv call. -/
structure InitCall where
  cfg : EnvGuardConfig
  fs : FS
  cwd : String
  penv : EnvMap

/-- The module state left after a sequence of initEnv calls. -/
def runInitCalls (st : GuardState) (calls : List InitCall) : GuardState :=
  calls.foldl (fun s c => (initEnv c.cfg c.fs c.cwd c.penv s).state) st

/-- A single initEnv whose validation fails leaves the module state
exactly as it was. -/
theorem initEnv_fail_state (cfg : EnvGuardConfig) (fs : FS) (cwd : String)
    (penv : EnvMap) (st : GuardState) (e : ZodError)
    (hini : st.isInitialized = false)
    (herr : cfg.schema (initMerged cfg fs cwd penv) = Except.error e) :
    (initEnv cfg fs cwd penv st).state = st := by
  unfold initEnv
  rw [if_neg (by simp [hini]), herr]
  by_cases h : cfg.onError = true <;> simp [h]

/-- Folding failing calls from an uninitialized state stays put. -/
theorem runInitCalls_fail_fix (calls : List InitCall) (st : GuardState)
    (hini : st.isInitialized = false)
    (hfail : ∀ c ∈ calls, ∃ e,
      c.cfg.schema (initMerged c.cfg c.fs c.cwd c.penv) = Except.error e) :
    runInitCalls st calls = st := by
  induction calls generalizing st with
  | nil => rfl
  | cons c t ih =>
    obtain ⟨e, he⟩ := hfail c (List.mem_cons_self c t)
    unfold runInitCalls
    rw [List.foldl_cons]
    rw [initEnv_fail_state c.cfg c.fs c.cwd c.penv st e hini he]
    exact ih st hini (fun d hd => hfail d (List.mem_cons_of_mem c hd))

/-- C8: starting from the module-load state, any number of initEnv
calls that all fail validation leaves the state exactly as loaded: no
snapshot is stored, isInitialized stays false, and getEnv throws the
uninitialized error naming initEnv; and a single failing initEnv from
any uninitialized state leaves the state unchanged. -/
theorem c8_cache_empty_until_success (calls : List InitCall)
    (hfail : ∀ c ∈ calls, ∃ e,
      c.cfg.schema (initMerged c.cfg c.fs c.cwd c.penv) = Except.error e) :
    runInitCalls initialState calls = initialState ∧
    (runInitCalls initialState calls).isInitialized = false ∧
    getEnv (runInitCalls initialState calls) =
      Except.error "EnvGuard not initialized. Call initEnv() first." ∧
    (∀ cfg fs cwd penv (st : GuardState) e, st.isInitialized = false →
      cfg.schema (initMerged cfg fs cwd penv) = Except.error e →
      (initEnv cfg fs cwd penv st).state = st) := by
  have hfix := runInitCalls_fail_fix calls initialState rfl hfail
  refine ⟨hfix, by rw [hfix]; rfl, by rw [hfix]; rfl,
    fun cfg fs cwd penv st e h1 h2 =>
      initEnv_fail_state cfg fs cwd penv st e h1 h2⟩

/-- A failing call for the C8 witness. -/
def c8call : InitCall :=
  ⟨⟨fun _ => Except.error ⟨[⟨["X"], "Required", "invalid_type"⟩]⟩,
     none, false, true⟩, ⟨[]⟩, "/app", []⟩

/-- Witness for C8: two failing initEnv calls leave getEnv throwing the
uninitialized error. -/
theorem c8_cache_empty_until_success_witness :
    getEnv (runInitCalls initialState [c8call, c8call]) =
      Except.error "EnvGuard not initialized. Call initEnv() first." :=
  (c8_cache_empty_until_success [c8call, c8call]
    (by
      intro c hc
      rcases List.mem_cons.mp hc with h | h
      · subst h
        exact ⟨⟨[⟨["X"], "Required", "invalid_type"⟩]⟩, rfl⟩
      · rcases List.mem_cons.mp h with h2 | h2
        · subst h2
          exact ⟨⟨[⟨["X"], "Required", "invalid_type"⟩]⟩, rfl⟩
        · exact absurd h2 (List.not_mem_nil c))).2.2.1

/-! Claim C2: which returned values alias the cache. -/

/-- initEnv on the already-initialized warning path. -/
theorem initEnv_warn_eq (cfg : EnvGuardConfig) (fs : FS) (cwd : String)
    (penv : EnvMap) (st : GuardState)
    (hg : st.isInitialized = true ∧ lookupEnv penv "NODE_ENV" ≠ some "test") :
    initEnv cfg fs cwd penv st =
      ⟨st, ["EnvGuard already initialized."], Outcome.ret st.runtimeEnv⟩ := by
  unfold initEnv
  rw [if_pos hg]

/-- initEnv on the first-success path. -/
theorem initEnv_ok_eq (cfg : EnvGuardConfig) (fs : FS) (cwd : String)
    (penv : EnvMap) (st : GuardState) (validated : EnvMap)
    (hg : ¬(st.isInitialized = true ∧
      lookupEnv penv "NODE_ENV" ≠ some "test"))
    (hs : cfg.schema (initMerged cfg fs cwd penv) = Except.ok validated) :
    initEnv cfg fs cwd penv st =
      ⟨⟨(st.heap.alloc validated).1, (st.heap.alloc validated).2, true⟩,
        (if lookupEnv penv "NODE_ENV" ≠ some "production"
         then ["✅ EnvGuard: Validated"] else []),
        Outcome.ret (st.heap.alloc validated).2⟩ := by
  unfold initEnv
  rw [if_neg hg, hs]

/-- initEnv on the validation-failure path. -/
theorem initEnv_err_eq (cfg : EnvGuardConfig) (fs : FS) (cwd : String)
    (penv : EnvMap) (st : GuardState) (e : ZodError)
    (hg : ¬(st.isInitialized = true ∧
      lookupEnv penv "NODE_ENV" ≠ some "test"))
    (hs : cfg.schema (initMerged cfg fs cwd penv) = Except.error e) :
    initEnv cfg fs cwd penv st =
      if cfg.onError = true then ⟨st, [], Outcome.raise e true⟩
      else ⟨st, (handleValidationError e cfg.allowMissingInDev penv).1,
        Outcome.exited (handleValidationError e cfg.allowMissingInDev penv).2⟩ := by
  unfold initEnv
  rw [if_neg hg, hs]

/-- Mutating the freshly allocated object leaves the other objects of
the grown heap alone. -/
theorem assignKey_fresh_get (h : Heap) (m : EnvMap) (q : Nat)
    (k v : String) (hq : q < h.objs.length) :
    ((h.alloc m).1.assignKey (h.alloc m).2 k v).get q =
      (h.alloc m).1.get q := by
  unfold Heap.alloc Heap.assignKey Heap.setObj Heap.get
  simp [List.getD_eq_getElem?_getD,
    List.getElem?_set_ne (Ne.symm (Nat.ne_of_lt hq)),
    List.getElem?_append_left hq]

/-- C2 (amended): mutating the value returned by getEnv or by createEnv
does not change the cached state — both return freshly allocated
shallow copies — but the value initEnv returns is the cached object
itself: whenever initEnv returns normally (first success or the
already-initialized warning path), the returned reference equals the
state's runtimeEnv reference, so mutations through it do reach the
cache. -/
theorem c2_snapshot_copy_vs_alias (cfg : EnvGuardConfig) (fs : FS)
    (cwd : String) (penv : EnvMap) (st : GuardState)
    (hvalid : st.runtimeEnv < st.heap.objs.length) :
    (∀ r, (initEnv cfg fs cwd penv st).outcome = Outcome.ret r →
      r = (initEnv cfg fs cwd penv st).state.runtimeEnv) ∧
    (st.isInitialized = true → ∀ k v, ∃ st' r,
      getEnv st = Except.ok (st', r) ∧ r ≠ st'.runtimeEnv ∧
      (mutateRef st' r k v).heap.get (mutateRef st' r k v).runtimeEnv =
        st.heap.get st.runtimeEnv) ∧
    (∀ r, (createEnv cfg fs cwd penv st).outcome = Outcome.ret r →
      r ≠ (createEnv cfg fs cwd penv st).state.runtimeEnv ∧
      ∀ k v,
        (mutateRef (createEnv cfg fs cwd penv st).state r k v).heap.get
            ((createEnv cfg fs cwd penv st).state.runtimeEnv) =
          (createEnv cfg fs cwd penv st).state.heap.get
            ((createEnv cfg fs cwd penv st).state.runtimeEnv)) := by
  refine ⟨?_, ?_, ?_⟩
  · intro r hr
    by_cases hg : st.isInitialized = true ∧
      lookupEnv penv "NODE_ENV" ≠ some "test"
    · rw [initEnv_warn_eq cfg fs cwd penv st hg] at hr ⊢
      replace hr : Outcome.ret st.runtimeEnv = Outcome.ret r := hr
      injection hr with h
      exact h.symm
    · cases hs : cfg.schema (initMerged cfg fs cwd penv) with
      | ok validated =>
        rw [initEnv_ok_eq cfg fs cwd penv st validated hg hs] at hr ⊢
        replace hr :
          Outcome.ret (st.heap.alloc validated).2 = Outcome.ret r := hr
        injection hr with h
        exact h.symm
      | error e =>
        rw [initEnv_err_eq cfg fs cwd penv st e hg hs] at hr
        by_cases ho : cfg.onError = true
        · rw [if_pos ho] at hr
          exact Outcome.noConfusion
            (show Outcome.raise e true = Outcome.ret r from hr)
        · rw [if_neg ho] at hr
          exact Outcome.noConfusion
            (show Outcome.exited
              (handleValidationError e cfg.allowMissingInDev penv).2 =
              Outcome.ret r from hr)
  · intro hinit k v
    refine ⟨⟨(st.heap.alloc (st.heap.get st.runtimeEnv)).1, st.runtimeEnv,
        st.isInitialized⟩, (st.heap.alloc (st.heap.get st.runtimeEnv)).2,
      getEnv_ok st hinit, Ne.symm (Nat.ne_of_lt hvalid), ?_⟩
    exact mutate_fresh_preserves st.heap (st.heap.get st.runtimeEnv)
      st.runtimeEnv k v hvalid
  · intro r hr
    by_cases hg : st.isInitialized = true ∧
      lookupEnv penv "NODE_ENV" ≠ some "test"
    · unfold createEnv at hr ⊢
      rw [initEnv_warn_eq cfg fs cwd penv st hg] at hr ⊢
      dsimp only at hr ⊢
      rw [getEnv_ok st hg.1] at hr ⊢
      replace hr :
        Outcome.ret (st.heap.alloc (st.heap.get st.runtimeEnv)).2 =
          Outcome.ret r := hr
      injection hr with h
      subst h
      refine ⟨Ne.symm (Nat.ne_of_lt hvalid), fun k v => ?_⟩
      exact assignKey_fresh_get st.heap (st.heap.get st.runtimeEnv)
        st.runtimeEnv k v hvalid
    · cases hs : cfg.schema (initMerged cfg fs cwd penv) with
      | ok validated =>
        have hlen : (st.heap.alloc validated).2 <
            (st.heap.alloc validated).1.objs.length := by
          show st.heap.objs.length < (st.heap.objs ++ [validated]).length
          simp [List.length_append]
        unfold createEnv at hr ⊢
        rw [initEnv_ok_eq cfg fs cwd penv st validated hg hs] at hr ⊢
        dsimp only at hr ⊢
        rw [getEnv_ok ⟨(st.heap.alloc validated).1,
          (st.heap.alloc validated).2, true⟩ rfl] at hr ⊢
        replace hr :
          Outcome.ret ((st.heap.alloc validated).1.alloc
            ((st.heap.alloc validated).1.get
              (st.heap.alloc validated).2)).2 = Outcome.ret r := hr
        injection hr with h
        subst h
        refine ⟨Ne.symm (Nat.ne_of_lt hlen), fun k v => ?_⟩
        exact assignKey_fresh_get (st.heap.alloc validated).1
          ((st.heap.alloc validated).1.get (st.heap.alloc validated).2)
          (st.heap.alloc validated).2 k v hlen
      | error e =>
        unfold createEnv at hr
        rw [initEnv_err_eq cfg fs cwd penv st e hg hs] at hr
        by_cases ho : cfg.onError = true
        · rw [if_pos ho] at hr
          exact Outcome.noConfusion
            (show Outcome.raise e true = Outcome.ret r from hr)
        · rw [if_neg ho] at hr
          exact Outcome.noConfusion
            (show Outcome.exited
              (handleValidationError e cfg.allowMissingInDev penv).2 =
              Outcome.ret r from hr)

/-- Witness for C2 at a concrete initialized state: getEnv hands out a
copy whose mutation leaves the cached contents intact. -/
theorem c2_snapshot_copy_vs_alias_witness :
    ∃ st' r,
      getEnv ⟨⟨[[("A", "1")]]⟩, 0, true⟩ = Except.ok (st', r) ∧
      r ≠ st'.runtimeEnv ∧
      (mutateRef st' r "A" "2").heap.get
          (mutateRef st' r "A" "2").runtimeEnv =
        (⟨⟨[[("A", "1")]]⟩, 0, true⟩ : GuardState).heap.get 0 :=
  (c2_snapshot_copy_vs_alias ⟨fun m => Except.ok m, none, false, false⟩
    ⟨[]⟩ "/app" [] ⟨⟨[[("A", "1")]]⟩, 0, true⟩ (by decide)).2.1 rfl "A" "2"

/-- Configuration for the C2 counterexample run. -/
def c2cfg : EnvGuardConfig := ⟨fun _ => Except.ok [("A", "1")], none, false, false⟩

/-- C2 counterexample: on the first successful initEnv the returned
reference (1) is exactly the cached runtimeEnv reference, so a caller
assigning A := "2" through the returned object changes the cached
state: the next getEnv observes "2" instead of the originally
validated "1". -/
theorem c2_initEnv_alias_counterexample :
    (initEnv c2cfg ⟨[]⟩ "/app" [] initialState).outcome = Outcome.ret 1 ∧
    (initEnv c2cfg ⟨[]⟩ "/app" [] initialState).state.runtimeEnv = 1 ∧
    lookupEnv
      ((initEnv c2cfg ⟨[]⟩ "/app" [] initialState).state.heap.get 1) "A" =
      some "1" ∧
    (match getEnv (mutateRef
        (initEnv c2cfg ⟨[]⟩ "/app" [] initialState).state 1 "A" "2") with
      | Except.ok sr => lookupEnv (sr.1.heap.get sr.2) "A"
      | Except.error _ => none) = some "2" := by
  decide

end EnvGuard
